import Mathlib

/-!
A shallow embedding of `src/codegen.rs` of the `runtime-fmt` repository:
the capability resolution and type-erased dispatch layer.

Modelling choices, in source order:

* `std::fmt::Formatter` is modelled as an abstract sink state (`Formatter`,
  a list of emitted fragments) and `std::fmt::Result` as `FmtResult`.
* The nine standard formatting traits handled by the `impl_format_trait!`
  invocation (`Display, Debug, LowerExp, UpperExp, Octal, Pointer, Binary,
  LowerHex, UpperHex`) are the constructors of `FormatTraitKind`.
* Whether a concrete Rust type `T` implements one of those traits, and with
  which `fmt` method, is the instance environment of `T`; it is modelled by
  `TraitImpls`, a table giving for each trait kind `some impl` (the type's
  own `fmt`) when the trait is implemented and `none` otherwise.
* Rust specialization in `impl<T> Specialized<T> for $name` (default:
  `allowed = false`, `perform = panic!()`) overridden by
  `impl<T: $name> Specialized<T> for $name` (`allowed = true`,
  `perform = t.fmt(f)`) resolves, for each `(trait, type)` pair, to the
  bound impl exactly when the trait bound holds, i.e. when the table has
  `some impl`; `Specialized.allowed` / `Specialized.perform` embed that
  resolved behaviour.
* A `panic!` is modelled as the `PResult.panicked` outcome.
* A Rust closure type `Mapper: Fn(&This) -> &Value` is modelled by
  `MapperTy`: its representational size (`size_of::<Mapper>()`) and the
  projection that `unsafe { zeroed::<Mapper>() }` denotes.  A value of the
  closure type is `MapperVal`; in Rust a zero-sized type is inhabited by a
  unique value, so for `size = 0` every value's call behaviour coincides
  with the zeroed one (`MapperVal.zst_coh`).
* References `&T` are modelled by the values themselves.
* For `SpecUsize` the specialization is on type identity with `usize`, so
  the field type of `get_as_usize` is given as a code in a universe `RTy`
  of Rust types (with carriers via `RTy.interp`); `usize` values are `Nat`.
-/

/-- The sink state of a `std::fmt::Formatter`: the fragments written so far. -/
structure Formatter : Type where
  out : List String
deriving DecidableEq, Repr

/-- `std::fmt::Result`: success or a formatting error. -/
inductive FmtResult : Type where
  | ok : FmtResult
  | err : FmtResult
deriving DecidableEq, Repr

/-- Outcome of running Rust code that may `panic!`: either a normal return
or a panic with its message. -/
inductive PResult (α : Type) : Type where
  | panicked : String → PResult α
  | ok : α → PResult α
deriving Repr

/-- The nine formatting traits fed to the `impl_format_trait!` macro:
`Display, Debug, LowerExp, UpperExp, Octal, Pointer, Binary, LowerHex,
UpperHex` (src/codegen.rs lines 60-63). -/
inductive FormatTraitKind : Type where
  | display : FormatTraitKind
  | debug : FormatTraitKind
  | lowerExp : FormatTraitKind
  | upperExp : FormatTraitKind
  | octal : FormatTraitKind
  | pointer : FormatTraitKind
  | binary : FormatTraitKind
  | lowerHex : FormatTraitKind
  | upperHex : FormatTraitKind
deriving DecidableEq, Repr

/-- A concrete `fmt` method of a formatting-trait impl: takes the value and
the sink, returns the `std::fmt::Result` and the updated sink. -/
def FmtImpl (α : Type) : Type := α → Formatter → FmtResult × Formatter

/-- The formatting-trait instance environment of a Rust type `α`: for each
of the nine trait kinds, `some impl` (the type's own `fmt` method) when `α`
implements that trait, `none` when it does not. -/
def TraitImpls (α : Type) : Type := FormatTraitKind → Option (FmtImpl α)

/-- `<$name as Specialized<T>>::allowed()` after specialization resolution:
the default impl returns `false`, the `T: $name` impl returns `true`, and
the latter is selected exactly when `T` implements the trait. -/
def Specialized.allowed {α : Type} (ti : TraitImpls α) (k : FormatTraitKind) : Bool :=
  (ti k).isSome

/-- `<$name as Specialized<T>>::perform(t, f)` after specialization
resolution: the default impl is `panic!()`, the `T: $name` impl is
`t.fmt(f)`, and the latter is selected exactly when `T` implements the
trait. -/
def Specialized.perform {α : Type} (ti : TraitImpls α) (k : FormatTraitKind)
    (t : α) (f : Formatter) : PResult (FmtResult × Formatter) :=
  match ti k with
  | some impl => PResult.ok (impl t f)
  | none => PResult.panicked "explicit panic"

/-- `<$name as FormatTrait>::allowed::<T>()`: delegates to
`<Self as Specialized<T>>::allowed()` (src/codegen.rs line 50). -/
def FormatTrait.allowed {α : Type} (ti : TraitImpls α) (k : FormatTraitKind) : Bool :=
  Specialized.allowed ti k

/-- `<$name as FormatTrait>::perform::<T>(t, f)`: delegates to
`<Self as Specialized<T>>::perform(t, f)` (src/codegen.rs lines 52-54). -/
def FormatTrait.perform {α : Type} (ti : TraitImpls α) (k : FormatTraitKind)
    (t : α) (f : Formatter) : PResult (FmtResult × Formatter) :=
  Specialized.perform ti k t f

/-- A Rust closure type `Mapper: Fn(&This) -> &Value`, characterized by its
representational size `size_of::<Mapper>()` and by the projection that the
bit pattern `unsafe { zeroed::<Mapper>() }` denotes as a callable. -/
structure MapperTy (This Value : Type) : Type where
  size : Nat
  zeroedFn : This → Value

/-- A value of the closure type `M`: its own call behaviour.  In Rust a
zero-sized type has a unique inhabitant, so when `M.size = 0` the value's
call behaviour coincides with that of the zeroed bit pattern. -/
structure MapperVal {This Value : Type} (M : MapperTy This Value) : Type where
  call : This → Value
  zst_coh : M.size = 0 → ∀ t, call t = M.zeroedFn t

/-- `type FormatFn<T> = fn(&T, &mut Formatter) -> Result` (src/codegen.rs
line 66); invoking it may panic. -/
def FormatFn (This : Type) : Type := This → Formatter → PResult (FmtResult × Formatter)

/-- The message of the `assert!` guarding both `get_formatter` and
`get_as_usize` (the formatted size is elided). -/
def mapperSizeMsg : String :=
  "Mapper from parent to child must be zero-sized"

/-- The local `fn inner` of `get_formatter` (src/codegen.rs lines 80-85):
reconstructs the mapper via `zeroed::<Mapper>()`, projects the field and
calls `Format::perform::<Value>` on it. -/
def get_formatter.inner {This Value : Type} (ti : TraitImpls Value)
    (k : FormatTraitKind) (M : MapperTy This Value) : FormatFn This :=
  fun this fmt =>
    let mapper := M.zeroedFn
    FormatTrait.perform ti k (mapper this) fmt

/-- `get_formatter::<Format, This, Value, Mapper>(_: Mapper)`
(src/codegen.rs lines 72-91): asserts `size_of::<Mapper>() == 0`, then
returns `Some(inner)` when `Format::allowed::<Value>()` and `None`
otherwise.  `k` is the `Format` trait, `ti` the instance environment of
`Value`; the mapper value argument is discarded, as the `_: Mapper` binder
in the source. -/
def get_formatter {This Value : Type} (ti : TraitImpls Value) (k : FormatTraitKind)
    (M : MapperTy This Value) (_ : MapperVal M) : PResult (Option (FormatFn This)) :=
  if M.size = 0 then
    if FormatTrait.allowed ti k then
      PResult.ok (some (get_formatter.inner ti k M))
    else
      PResult.ok none
  else
    PResult.panicked mapperSizeMsg

/-- Codes for the concrete Rust types a field may have; `SpecUsize`
specializes on identity with `usize`, so the codes of the distinct Rust
types are distinct, whatever carrier interprets them.  `other n` stands
for the remaining types of the program. -/
inductive RTy : Type where
  | usize : RTy
  | u8 : RTy
  | u16 : RTy
  | u32 : RTy
  | u64 : RTy
  | u128 : RTy
  | i8 : RTy
  | i16 : RTy
  | i32 : RTy
  | i64 : RTy
  | i128 : RTy
  | isize : RTy
  | f32 : RTy
  | f64 : RTy
  | bool : RTy
  | char : RTy
  | str : RTy
  | other : Nat → RTy
deriving DecidableEq, Repr

/-- Carrier of each Rust type code; `usize` values are natural numbers
(the width plays no role in this module, which never computes on them). -/
def RTy.interp : RTy → Type
  | RTy.usize => Nat
  | RTy.u8 => Fin (2 ^ 8)
  | RTy.u16 => Fin (2 ^ 16)
  | RTy.u32 => Fin (2 ^ 32)
  | RTy.u64 => Fin (2 ^ 64)
  | RTy.u128 => Fin (2 ^ 128)
  | RTy.i8 => Int
  | RTy.i16 => Int
  | RTy.i32 => Int
  | RTy.i64 => Int
  | RTy.i128 => Int
  | RTy.isize => Int
  | RTy.f32 => Nat × Nat
  | RTy.f64 => Nat × Nat
  | RTy.bool => Bool
  | RTy.char => Char
  | RTy.str => String
  | RTy.other _ => Nat

/-- `<Value as SpecUsize>::convert(f)` after specialization resolution
(src/codegen.rs lines 94-107): the blanket `impl<U> SpecUsize for U`
returns `None`, overridden by `impl SpecUsize for usize` returning
`Some(f)`; the override is selected exactly when the type is `usize`. -/
def SpecUsize.convert {This : Type} : (v : RTy) → (This → v.interp) → Option (This → Nat)
  | RTy.usize, f => some f
  | RTy.u8, _ => none
  | RTy.u16, _ => none
  | RTy.u32, _ => none
  | RTy.u64, _ => none
  | RTy.u128, _ => none
  | RTy.i8, _ => none
  | RTy.i16, _ => none
  | RTy.i32, _ => none
  | RTy.i64, _ => none
  | RTy.i128, _ => none
  | RTy.isize, _ => none
  | RTy.f32, _ => none
  | RTy.f64, _ => none
  | RTy.bool, _ => none
  | RTy.char, _ => none
  | RTy.str, _ => none
  | RTy.other _, _ => none

/-- The local `fn inner` of `get_as_usize` (src/codegen.rs lines 119-124):
reconstructs the mapper via `zeroed::<Mapper>()` and projects the field. -/
def get_as_usize.inner {This : Type} {v : RTy} (M : MapperTy This v.interp) :
    This → v.interp :=
  fun this =>
    let mapper := M.zeroedFn
    mapper this

/-- `get_as_usize::<This, Value, Mapper>(_: Mapper)` (src/codegen.rs lines
112-126): asserts `size_of::<Mapper>() == 0`, then returns
`<Value as SpecUsize>::convert(inner)`.  The field type is the code `v`;
the mapper value argument is discarded, as the `_: Mapper` binder in the
source. -/
def get_as_usize {This : Type} (v : RTy) (M : MapperTy This v.interp)
    (_ : MapperVal M) : PResult (Option (This → Nat)) :=
  if M.size = 0 then
    PResult.ok (SpecUsize.convert v (get_as_usize.inner M))
  else
    PResult.panicked mapperSizeMsg

/-! ### Concrete instantiations used by the witnesses -/

/-- A `Display`-style `fmt` method for `usize` values: append the decimal
rendering of the value to the sink. -/
def displayNatImpl : FmtImpl Nat := fun n f => (FmtResult.ok, ⟨f.out ++ [toString n]⟩)

/-- An instance environment for a type implementing only `Display`. -/
def tiNat : TraitImpls Nat := fun k =>
  match k with
  | FormatTraitKind.display => some displayNatImpl
  | _ => none

/-- A zero-sized mapper type from `Nat` to `Nat`: the identity projection. -/
def idMapperTy : MapperTy Nat Nat := ⟨0, fun n => n⟩

/-- The unique value of `idMapperTy`. -/
def idMapperVal : MapperVal idMapperTy := ⟨fun n => n, fun _ _ => rfl⟩

/-- A second value of `idMapperTy`, written differently but with the same
call behaviour (as Rust forces for a zero-sized type). -/
def idMapperValB : MapperVal idMapperTy := ⟨fun n => 0 + n, fun _ t => Nat.zero_add t⟩

/-- A mapper type of representational size `1` (a capturing closure). -/
def badMapperTy : MapperTy Nat Nat := ⟨1, fun n => n⟩

/-- A value of the non-zero-sized `badMapperTy`. -/
def badMapperVal : MapperVal badMapperTy := ⟨fun n => n, fun h => absurd h (by decide)⟩

/-- A zero-sized mapper type to a `usize` field. -/
def usizeMapperTy : MapperTy Nat (RTy.interp RTy.usize) := ⟨0, fun n => n⟩

/-- The unique value of `usizeMapperTy`. -/
def usizeMapperVal : MapperVal usizeMapperTy := ⟨fun n => n, fun _ _ => rfl⟩

/-- A second value of `usizeMapperTy` with the same call behaviour. -/
def usizeMapperValB : MapperVal usizeMapperTy := ⟨fun n => 0 + n, fun _ t => Nat.zero_add t⟩

/-- A constant value of the `u32` carrier. -/
def u32Zero : RTy.interp RTy.u32 := (⟨0, by norm_num⟩ : Fin (2 ^ 32))

/-- A zero-sized mapper type to a `u32` field. -/
def u32MapperTy : MapperTy Nat (RTy.interp RTy.u32) := ⟨0, fun _ => u32Zero⟩

/-- The unique value of `u32MapperTy`. -/
def u32MapperVal : MapperVal u32MapperTy := ⟨fun _ => u32Zero, fun _ _ => rfl⟩

/-- A mapper type to a `usize` field, of representational size `1`. -/
def badUsizeMapperTy : MapperTy Nat (RTy.interp RTy.usize) := ⟨1, fun n => n⟩

/-- A value of the non-zero-sized `badUsizeMapperTy`. -/
def badUsizeMapperVal : MapperVal badUsizeMapperTy :=
  ⟨fun n => n, fun h => absurd h (by decide)⟩

/-! ### Claims -/

/-- Claim C1: for every container type, field type, capability and
zero-sized projection mapper, `get_formatter` returns `Some` formatter when
`Format::allowed::<Value>()` is `true` and `None` when it is `false`. -/
theorem get_formatter_some_iff_allowed {This Value : Type} (ti : TraitImpls Value)
    (k : FormatTraitKind) (M : MapperTy This Value) (m : MapperVal M)
    (h : M.size = 0) :
    (FormatTrait.allowed ti k = true →
      ∃ f, get_formatter ti k M m = PResult.ok (some f)) ∧
    (FormatTrait.allowed ti k = false →
      get_formatter ti k M m = PResult.ok none) := by
  constructor
  · intro ha
    exact ⟨get_formatter.inner ti k M, by simp [get_formatter, h, ha]⟩
  · intro ha
    simp [get_formatter, h, ha]

/-- Claim C1, witness: the `Display`-only type at the `display` capability
yields a formatter, and at the `octal` capability yields `none`. -/
theorem get_formatter_some_iff_allowed_witness :
    idMapperTy.size = 0 ∧
    (∃ f, get_formatter tiNat FormatTraitKind.display idMapperTy idMapperVal
      = PResult.ok (some f)) ∧
    get_formatter tiNat FormatTraitKind.octal idMapperTy idMapperVal
      = PResult.ok none :=
  ⟨rfl,
   (get_formatter_some_iff_allowed tiNat FormatTraitKind.display idMapperTy
      idMapperVal rfl).1 rfl,
   (get_formatter_some_iff_allowed tiNat FormatTraitKind.octal idMapperTy
      idMapperVal rfl).2 rfl⟩

/-- Claim C2: whenever `get_formatter` returns `Some f` for a zero-sized
mapper, `f this fmt` equals `Format::perform::<Value>(mapper(this), fmt)` —
the capability's operation applied directly to the projected field value. -/
theorem get_formatter_output_eq_perform {This Value : Type} (ti : TraitImpls Value)
    (k : FormatTraitKind) (M : MapperTy This Value) (m : MapperVal M)
    (f : FormatFn This) (h : M.size = 0)
    (hf : get_formatter ti k M m = PResult.ok (some f)) :
    ∀ (this : This) (fmt : Formatter),
      f this fmt = FormatTrait.perform ti k (m.call this) fmt := by
  intro this fmt
  by_cases ha : FormatTrait.allowed ti k = true
  · simp [get_formatter, h, ha] at hf
    rw [← hf]
    show FormatTrait.perform ti k (M.zeroedFn this) fmt
      = FormatTrait.perform ti k (m.call this) fmt
    rw [m.zst_coh h this]
  · simp [get_formatter, h, ha] at hf

/-- Claim C2, witness: at the concrete `Display` instantiation. -/
theorem get_formatter_output_eq_perform_witness :
    idMapperTy.size = 0 ∧
    get_formatter tiNat FormatTraitKind.display idMapperTy idMapperVal
      = PResult.ok (some (get_formatter.inner tiNat FormatTraitKind.display idMapperTy)) ∧
    get_formatter.inner tiNat FormatTraitKind.display idMapperTy 5 ⟨[]⟩
      = FormatTrait.perform tiNat FormatTraitKind.display (idMapperVal.call 5) ⟨[]⟩ :=
  ⟨rfl, rfl,
   get_formatter_output_eq_perform tiNat FormatTraitKind.display idMapperTy
     idMapperVal _ rfl rfl 5 ⟨[]⟩⟩

/-- Claim C3: for a zero-sized mapper, `get_as_usize` returns `Some` if and
only if the field type is exactly `usize`; every other type, including the
other integer widths, yields `None`. -/
theorem get_as_usize_some_iff_usize {This : Type} (v : RTy)
    (M : MapperTy This v.interp) (m : MapperVal M) (h : M.size = 0) :
    (∃ f, get_as_usize v M m = PResult.ok (some f)) ↔ v = RTy.usize := by
  constructor
  · rintro ⟨f, hf⟩
    cases v
    case usize => rfl
    all_goals simp [get_as_usize, h, SpecUsize.convert] at hf
  · rintro rfl
    exact ⟨get_as_usize.inner M, by simp [get_as_usize, h, SpecUsize.convert]⟩

/-- Claim C3, witness: a `usize` field yields `Some`; a `u32` field of the
same shape yields no formatter function. -/
theorem get_as_usize_some_iff_usize_witness :
    usizeMapperTy.size = 0 ∧
    (∃ f, get_as_usize RTy.usize usizeMapperTy usizeMapperVal
      = PResult.ok (some f)) ∧
    u32MapperTy.size = 0 ∧
    ¬ (∃ f, get_as_usize RTy.u32 u32MapperTy u32MapperVal
      = PResult.ok (some f)) :=
  ⟨rfl,
   (get_as_usize_some_iff_usize RTy.usize usizeMapperTy usizeMapperVal rfl).mpr rfl,
   rfl,
   fun hex => by
     have h32 := (get_as_usize_some_iff_usize RTy.u32 u32MapperTy u32MapperVal rfl).mp hex
     exact RTy.noConfusion h32⟩

/-- Claim C4: with a mapper of non-zero representational size, both
`get_formatter` and `get_as_usize` panic with the size-assertion message —
for `get_formatter` uniformly in the instance environment, so no capability
applicability query influences the outcome and no formatter (hence no
`perform` invocation) is produced — while with a zero-sized mapper the
assertion passes and each operation returns normally. -/
theorem mapper_size_assertion {This Value This2 : Type} (k : FormatTraitKind)
    (v : RTy) (M : MapperTy This Value) (m : MapperVal M)
    (M2 : MapperTy This2 v.interp) (m2 : MapperVal M2) :
    (M.size ≠ 0 →
      ∀ ti : TraitImpls Value, get_formatter ti k M m = PResult.panicked mapperSizeMsg) ∧
    (M.size = 0 →
      ∀ ti : TraitImpls Value, ∃ r, get_formatter ti k M m = PResult.ok r) ∧
    (M2.size ≠ 0 → get_as_usize v M2 m2 = PResult.panicked mapperSizeMsg) ∧
    (M2.size = 0 → ∃ r, get_as_usize v M2 m2 = PResult.ok r) := by
  refine ⟨fun h ti => ?_, fun h ti => ?_, fun h => ?_, fun h => ?_⟩
  · simp [get_formatter, h]
  · by_cases ha : FormatTrait.allowed ti k = true
    · exact ⟨some (get_formatter.inner ti k M), by simp [get_formatter, h, ha]⟩
    · exact ⟨none, by simp [get_formatter, h, ha]⟩
  · simp [get_as_usize, h]
  · exact ⟨SpecUsize.convert v (get_as_usize.inner M2), by simp [get_as_usize, h]⟩

/-- Claim C4, witness: a size-1 mapper makes both operations panic, a
size-0 mapper lets both return normally. -/
theorem mapper_size_assertion_witness :
    badMapperTy.size ≠ 0 ∧
    get_formatter tiNat FormatTraitKind.display badMapperTy badMapperVal
      = PResult.panicked mapperSizeMsg ∧
    badUsizeMapperTy.size ≠ 0 ∧
    get_as_usize RTy.usize badUsizeMapperTy badUsizeMapperVal
      = PResult.panicked mapperSizeMsg ∧
    idMapperTy.size = 0 ∧
    (∃ r, get_formatter tiNat FormatTraitKind.display idMapperTy idMapperVal
      = PResult.ok r) ∧
    usizeMapperTy.size = 0 ∧
    (∃ r, get_as_usize RTy.usize usizeMapperTy usizeMapperVal = PResult.ok r) :=
  ⟨by decide,
   (mapper_size_assertion FormatTraitKind.display RTy.usize badMapperTy badMapperVal
      badUsizeMapperTy badUsizeMapperVal).1 (by decide) tiNat,
   by decide,
   (mapper_size_assertion FormatTraitKind.display RTy.usize badMapperTy badMapperVal
      badUsizeMapperTy badUsizeMapperVal).2.2.1 (by decide),
   rfl,
   (mapper_size_assertion FormatTraitKind.display RTy.usize idMapperTy idMapperVal
      usizeMapperTy usizeMapperVal).2.1 rfl tiNat,
   rfl,
   (mapper_size_assertion FormatTraitKind.display RTy.usize idMapperTy idMapperVal
      usizeMapperTy usizeMapperVal).2.2.2 rfl⟩

/-- Claim C5: when `allowed` is `false` for a type, `perform` on that type
panics (the default specialization impl); and a formatter produced by
`get_formatter` exists only when `allowed` is `true`, in which case
invoking it always returns normally — the panicking branch is unreachable
through `get_formatter`. -/
theorem perform_unreachable_when_not_allowed {Value : Type} (ti : TraitImpls Value)
    (k : FormatTraitKind) :
    (FormatTrait.allowed ti k = false →
      ∀ (t : Value) (f : Formatter),
        FormatTrait.perform ti k t f = PResult.panicked "explicit panic") ∧
    (∀ {This : Type} (M : MapperTy This Value) (m : MapperVal M) (fn : FormatFn This),
      get_formatter ti k M m = PResult.ok (some fn) →
      FormatTrait.allowed ti k = true ∧
      ∀ (this : This) (fmt : Formatter), ∃ r, fn this fmt = PResult.ok r) := by
  constructor
  · intro ha t f
    rcases hk : ti k with _ | impl
    · simp [FormatTrait.perform, Specialized.perform, hk]
    · exfalso
      simp [FormatTrait.allowed, Specialized.allowed, hk] at ha
  · intro This M m fn hf
    by_cases h : M.size = 0
    · by_cases ha : FormatTrait.allowed ti k = true
      · refine ⟨ha, fun this fmt => ?_⟩
        simp [get_formatter, h, ha] at hf
        rcases hk : ti k with _ | impl
        · exfalso
          simp [FormatTrait.allowed, Specialized.allowed, hk] at ha
        · refine ⟨(impl (M.zeroedFn this) fmt), ?_⟩
          rw [← hf]
          show Specialized.perform ti k (M.zeroedFn this) fmt = _
          simp [Specialized.perform, hk]
      · simp [get_formatter, h, ha] at hf
    · simp [get_formatter, h] at hf

/-- Claim C5, witness: `octal` is not allowed for the `Display`-only type,
so its `perform` panics; the `display` formatter exists and returns
normally. -/
theorem perform_unreachable_when_not_allowed_witness :
    (FormatTrait.allowed tiNat FormatTraitKind.octal = false ∧
     FormatTrait.perform tiNat FormatTraitKind.octal 5 ⟨[]⟩
       = PResult.panicked "explicit panic") ∧
    (get_formatter tiNat FormatTraitKind.display idMapperTy idMapperVal
       = PResult.ok (some (get_formatter.inner tiNat FormatTraitKind.display idMapperTy)) ∧
     FormatTrait.allowed tiNat FormatTraitKind.display = true ∧
     ∃ r, get_formatter.inner tiNat FormatTraitKind.display idMapperTy 5 ⟨[]⟩
       = PResult.ok r) :=
  ⟨⟨rfl,
    (perform_unreachable_when_not_allowed tiNat FormatTraitKind.octal).1 rfl 5 ⟨[]⟩⟩,
   ⟨rfl,
    ((perform_unreachable_when_not_allowed tiNat FormatTraitKind.display).2
      idMapperTy idMapperVal _ rfl).1,
    ((perform_unreachable_when_not_allowed tiNat FormatTraitKind.display).2
      idMapperTy idMapperVal _ rfl).2 5 ⟨[]⟩⟩⟩

/-- Claim C6: `allowed` reports `true` exactly when the type implements the
corresponding standard formatting trait (the instance environment has an
impl for it), and then `perform t f` is exactly `t.fmt(f)` — the type's own
implementation of that trait. -/
theorem allowed_iff_trait_impl {Value : Type} (ti : TraitImpls Value)
    (k : FormatTraitKind) :
    (FormatTrait.allowed ti k = true ↔ ∃ impl, ti k = some impl) ∧
    (∀ (impl : FmtImpl Value), ti k = some impl →
      ∀ (t : Value) (f : Formatter),
        FormatTrait.perform ti k t f = PResult.ok (impl t f)) := by
  constructor
  · simp [FormatTrait.allowed, Specialized.allowed, Option.isSome_iff_exists]
  · intro impl hk t f
    simp [FormatTrait.perform, Specialized.perform, hk]

/-- Claim C6, witness: the `Display`-only type's `display` impl is invoked
verbatim by `perform`. -/
theorem allowed_iff_trait_impl_witness :
    tiNat FormatTraitKind.display = some displayNatImpl ∧
    FormatTrait.perform tiNat FormatTraitKind.display 5 ⟨[]⟩
      = PResult.ok (displayNatImpl 5 ⟨[]⟩) :=
  ⟨rfl,
   (allowed_iff_trait_impl tiNat FormatTraitKind.display).2 displayNatImpl rfl 5 ⟨[]⟩⟩

/-- Claim C7: when `get_as_usize` returns `Some f`, the returned function
is the identity on the original mapper's behaviour: `f this` is the very
value `mapper(this)` projects to, with no conversion applied (`HEq` because
the field carrier is only propositionally `Nat` until the type code is
known to be `usize`). -/
theorem get_as_usize_identity {This : Type} (v : RTy) (M : MapperTy This v.interp)
    (m : MapperVal M) (f : This → Nat) (h : M.size = 0)
    (hf : get_as_usize v M m = PResult.ok (some f)) :
    ∀ this : This, HEq (f this) (m.call this) := by
  intro this
  cases v
  case usize =>
    simp [get_as_usize, h, SpecUsize.convert] at hf
    rw [← hf]
    show HEq (M.zeroedFn this) (m.call this)
    rw [m.zst_coh h this]
  all_goals simp [get_as_usize, h, SpecUsize.convert] at hf

/-- Claim C7, witness: for the identity `usize` mapper, the returned
function agrees with the mapper value at `5`. -/
theorem get_as_usize_identity_witness :
    usizeMapperTy.size = 0 ∧
    get_as_usize RTy.usize usizeMapperTy usizeMapperVal
      = PResult.ok (some (get_as_usize.inner usizeMapperTy)) ∧
    HEq (get_as_usize.inner usizeMapperTy 5) (usizeMapperVal.call 5) :=
  ⟨rfl, rfl,
   get_as_usize_identity RTy.usize usizeMapperTy usizeMapperVal _ rfl rfl 5⟩

/-- The nine capabilities of the module, in the order of the
`impl_format_trait!` invocation. -/
def formatTraitSet : List FormatTraitKind :=
  [FormatTraitKind.display, FormatTraitKind.debug, FormatTraitKind.lowerExp,
   FormatTraitKind.upperExp, FormatTraitKind.octal, FormatTraitKind.pointer,
   FormatTraitKind.binary, FormatTraitKind.lowerHex, FormatTraitKind.upperHex]

/-- Claim C8: the capability set is fixed and closed — every capability is
one of the nine listed kinds, the nine are pairwise distinct, and there are
exactly nine of them. -/
theorem format_trait_set_closed :
    (∀ k : FormatTraitKind, k ∈ formatTraitSet) ∧
    formatTraitSet.Nodup ∧ formatTraitSet.length = 9 := by
  refine ⟨fun k => ?_, by decide, rfl⟩
  cases k <;> simp [formatTraitSet]

/-- Claim C9: resolution is pure and deterministic — two calls of
`get_formatter` (or `get_as_usize`) at the same type instantiation with
valid zero-sized mapper values return behaviourally identical results, and
the returned formatter yields the same output on every repetition with the
same container and sink state, being a fixed function of them. -/
theorem resolution_deterministic {This Value This2 : Type} (ti : TraitImpls Value)
    (k : FormatTraitKind) (M : MapperTy This Value) (m m' : MapperVal M)
    (v : RTy) (M2 : MapperTy This2 v.interp) (m2 m2' : MapperVal M2) :
    (∀ f f', get_formatter ti k M m = PResult.ok (some f) →
      get_formatter ti k M m' = PResult.ok (some f') →
      ∀ (this : This) (fmt : Formatter), f this fmt = f' this fmt) ∧
    (get_formatter ti k M m = PResult.ok none →
      get_formatter ti k M m' = PResult.ok none) ∧
    (∀ g g', get_as_usize v M2 m2 = PResult.ok (some g) →
      get_as_usize v M2 m2' = PResult.ok (some g') →
      ∀ this : This2, g this = g' this) := by
  refine ⟨fun f f' hf hf' this fmt => ?_, fun h0 => h0, fun g g' hg hg' this => ?_⟩
  · have hff : PResult.ok (some f) = PResult.ok (some f') := hf.symm.trans hf'
    have : f = f' := by injection hff with h1; injection h1
    rw [this]
  · have hgg : PResult.ok (some g) = PResult.ok (some g') := hg.symm.trans hg'
    have : g = g' := by injection hgg with h1; injection h1
    rw [this]

/-- Claim C9, witness: two syntactically different values of the identity
mapper type produce formatters and index accessors that agree pointwise. -/
theorem resolution_deterministic_witness :
    get_formatter tiNat FormatTraitKind.display idMapperTy idMapperVal
      = PResult.ok (some (get_formatter.inner tiNat FormatTraitKind.display idMapperTy)) ∧
    get_formatter tiNat FormatTraitKind.display idMapperTy idMapperValB
      = PResult.ok (some (get_formatter.inner tiNat FormatTraitKind.display idMapperTy)) ∧
    get_formatter.inner tiNat FormatTraitKind.display idMapperTy 5 ⟨[]⟩
      = get_formatter.inner tiNat FormatTraitKind.display idMapperTy 5 ⟨[]⟩ ∧
    get_as_usize.inner usizeMapperTy 5 = get_as_usize.inner usizeMapperTy 5 :=
  ⟨rfl, rfl,
   (resolution_deterministic tiNat FormatTraitKind.display idMapperTy idMapperVal
      idMapperValB RTy.usize usizeMapperTy usizeMapperVal usizeMapperValB).1
     _ _ rfl rfl 5 ⟨[]⟩,
   (resolution_deterministic tiNat FormatTraitKind.display idMapperTy idMapperVal
      idMapperValB RTy.usize usizeMapperTy usizeMapperVal usizeMapperValB).2.2
     _ _ rfl rfl 5⟩

/-- Claim C10: the results of `get_formatter` and `get_as_usize` depend
only on the type instantiation, never on the mapper value passed — the
value argument is discarded and the projection actually invoked is the one
reconstructed from the zero bit pattern of the mapper type. -/
theorem mapper_value_ignored {This Value This2 : Type} (ti : TraitImpls Value)
    (k : FormatTraitKind) (M : MapperTy This Value) (m m' : MapperVal M)
    (v : RTy) (M2 : MapperTy This2 v.interp) (m2 m2' : MapperVal M2) :
    get_formatter ti k M m = get_formatter ti k M m' ∧
    get_as_usize v M2 m2 = get_as_usize v M2 m2' ∧
    (∀ f, get_formatter ti k M m = PResult.ok (some f) →
      ∀ (this : This) (fmt : Formatter),
        f this fmt = FormatTrait.perform ti k (M.zeroedFn this) fmt) ∧
    (∀ g, get_as_usize v M2 m2 = PResult.ok (some g) →
      ∀ this : This2, HEq (g this) (M2.zeroedFn this)) := by
  refine ⟨rfl, rfl, fun f hf this fmt => ?_, fun g hg this => ?_⟩
  · by_cases h : M.size = 0
    · by_cases ha : FormatTrait.allowed ti k = true
      · simp [get_formatter, h, ha] at hf
        rw [← hf]
        rfl
      · simp [get_formatter, h, ha] at hf
    · simp [get_formatter, h] at hf
  · by_cases h2 : M2.size = 0
    · cases v <;> simp [get_as_usize, h2, SpecUsize.convert] at hg
      rw [← hg]
      exact HEq.rfl
    · simp [get_as_usize, h2] at hg

/-- Claim C10, witness: the two values of the identity mapper type give
literally equal results, and the produced formatter applies `perform` to
the zero-pattern projection. -/
theorem mapper_value_ignored_witness :
    get_formatter tiNat FormatTraitKind.display idMapperTy idMapperVal
      = get_formatter tiNat FormatTraitKind.display idMapperTy idMapperValB ∧
    get_as_usize RTy.usize usizeMapperTy usizeMapperVal
      = get_as_usize RTy.usize usizeMapperTy usizeMapperValB ∧
    get_formatter.inner tiNat FormatTraitKind.display idMapperTy 5 ⟨[]⟩
      = FormatTrait.perform tiNat FormatTraitKind.display (idMapperTy.zeroedFn 5) ⟨[]⟩ ∧
    HEq (get_as_usize.inner usizeMapperTy 5) (usizeMapperTy.zeroedFn 5) :=
  ⟨(mapper_value_ignored tiNat FormatTraitKind.display idMapperTy idMapperVal
      idMapperValB RTy.usize usizeMapperTy usizeMapperVal usizeMapperValB).1,
   (mapper_value_ignored tiNat FormatTraitKind.display idMapperTy idMapperVal
      idMapperValB RTy.usize usizeMapperTy usizeMapperVal usizeMapperValB).2.1,
   (mapper_value_ignored tiNat FormatTraitKind.display idMapperTy idMapperVal
      idMapperValB RTy.usize usizeMapperTy usizeMapperVal usizeMapperValB).2.2.1
     _ rfl 5 ⟨[]⟩,
   (mapper_value_ignored tiNat FormatTraitKind.display idMapperTy idMapperVal
      idMapperValB RTy.usize usizeMapperTy usizeMapperVal usizeMapperValB).2.2.2
     _ rfl 5⟩
